import Mathlib

/-!
# Verification of the TeraBox m3u8 extractor's credential pool and pipeline

Shallow embedding of the credential-pool manager (`cookie_config.py`), the
share resolver (`get_m3u8_stream_fast.py`) and the single-video save path
(`get-m3u8-stream.py`), together with proofs of the spec's claims about them.

HTTP interactions are modelled by passing the remote responses in explicitly:
a function that performs a network call becomes a function of the response it
would have received (`none` / a dedicated constructor standing for a raised
connection error).  All definitions follow the Python source line by line.
-/

namespace TBox

/-! ## Generic string helpers (Python `in`, `str.strip`, slicing) -/

/-- `listIsInfix p l` decides whether `p` occurs as a contiguous run inside
`l`.  Mirrors Python's substring operator `p in l`. -/
def listIsInfix (p : List Char) : List Char → Bool
  | [] => p.isEmpty
  | c :: rest => p.isPrefixOf (c :: rest) || listIsInfix p rest

/-- Python's `pat in s` on strings. -/
def strContains (s pat : String) : Bool :=
  listIsInfix pat.toList s.toList

/-- Drop leading and trailing whitespace from a character list. -/
def trimChars (s : List Char) : List Char :=
  ((s.dropWhile Char.isWhitespace).reverse.dropWhile Char.isWhitespace).reverse

/-- Python's `s.strip()` (whitespace at both ends removed). -/
def pyStrip (s : String) : String :=
  String.mk (trimChars s.toList)

/-- Python's `s.lower()` (ASCII case folding suffices for the markers used). -/
def pyLower (s : String) : String :=
  String.mk (s.toList.map Char.toLower)

/-- Split a character list at newline characters; always non-empty, like
Python's `s.split('\n')`. -/
def splitNl : List Char → List (List Char)
  | [] => [[]]
  | c :: rest =>
    match splitNl rest with
    | [] => [[c]]
    | h :: t => if c = '\n' then [] :: h :: t else (c :: h) :: t

/-- Python's `s.split('\n')`. -/
def pySplitLines (s : String) : List String :=
  (splitNl s.toList).map String.mk

/-- First index `i` with `start ≤ i ≤ t.length` at which `p` occurs in `t`;
Python's `t.index(p, start)` (`none` = `ValueError`). -/
def strFindFrom (p t : List Char) (start : Nat) : Option Nat :=
  (((List.range (t.length + 1)).filter
      (fun i => start ≤ i && p.isPrefixOf (t.drop i)))).head?

/-- `find_between` from `get_m3u8_stream_fast.py` (lines 42-49) and
`get-m3u8-stream.py` (lines 125-132): the substring strictly between the end
of the first occurrence of `first` and the next occurrence of `last`;
`""` when either lookup raises `ValueError`. -/
def find_between (text first last : String) : String :=
  match strFindFrom first.toList text.toList 0 with
  | none => ""
  | some i0 =>
    match strFindFrom last.toList text.toList (i0 + first.length) with
    | none => ""
    | some e => String.mk ((text.toList.take e).drop (i0 + first.length))

/-! ## RemoteCredentialSource: `_fetch_cookies_from_path` -/

/-- Outcome of the single `requests.get` inside `_fetch_cookies_from_path`:
either an exception (connection error etc.) or a response with a status code
and a body. -/
inductive CredOut : Type
  | exc : CredOut
  | resp (status : Nat) (body : String) : CredOut

/-- A line carries a credential only if it contains the session marker. -/
def hasMarker (line : String) : Bool :=
  strContains line "ndus="

/-- Body of the credential-collection loops: append `v` when it is non-empty,
carries the marker, and was not already collected (`if line and "ndus=" in
line and line not in cookies: cookies.append(line)`). -/
def insert_new (acc : List String) (v : String) : List String :=
  if v ≠ "" && hasMarker v && !(acc.contains v) then acc ++ [v] else acc

/-- The parsing loop of `_fetch_cookies_from_path` (cookie_config.py lines
79-86): split the stripped body on newlines, keep stripped non-empty lines
that contain `"ndus="`, skipping lines already collected. -/
def parse_cookie_body (content : String) : List String :=
  (pySplitLines content).foldl (fun acc l => insert_new acc (pyStrip l)) []

/-- `GithubCookieManager._fetch_cookies_from_path` (cookie_config.py lines
61-98) as a function of the HTTP outcome: empty list on an exception or a
non-200 status, otherwise the parsed, deduplicated credential lines. -/
def fetch_cookies_from_path : CredOut → List String
  | .exc => []
  | .resp status body => if status = 200 then parse_cookie_body (pyStrip body) else []

/-- Specification-level description of the parse: the stripped lines of the
(stripped) body, keeping the non-empty ones that contain the marker. -/
def valid_lines (body : String) : List String :=
  ((pySplitLines (pyStrip body)).map pyStrip).filter
    (fun l => l ≠ "" && hasMarker l)

/-- Specification-level first-occurrence deduplication: keep each string the
first time it appears, drop later repeats. -/
def dedup_first : List String → List String
  | [] => []
  | a :: l => a :: (dedup_first l).filter (fun x => x ≠ a)

theorem mem_dedup_first (x : String) : ∀ l : List String, x ∈ dedup_first l ↔ x ∈ l := by
  intro l
  induction l with
  | nil => simp [dedup_first]
  | cons a l ih =>
    simp only [dedup_first, List.mem_cons, List.mem_filter]
    constructor
    · rintro (rfl | ⟨hx, _⟩)
      · exact Or.inl rfl
      · exact Or.inr (ih.mp hx)
    · rintro (rfl | hx)
      · exact Or.inl rfl
      · by_cases hxa : x = a
        · exact Or.inl hxa
        · exact Or.inr ⟨ih.mpr hx, by simp [hxa]⟩

theorem dedup_first_nodup : ∀ l : List String, (dedup_first l).Nodup := by
  intro l
  induction l with
  | nil => simp [dedup_first]
  | cons a l ih =>
    simp only [dedup_first, List.nodup_cons]
    refine ⟨?_, ih.filter _⟩
    intro hmem
    have := (List.mem_filter.mp hmem).2
    simp at this

theorem dedup_first_sublist : ∀ l : List String, (dedup_first l).Sublist l := by
  intro l
  induction l with
  | nil => simp [dedup_first]
  | cons a l ih =>
    exact List.Sublist.cons₂ a (List.Sublist.trans (List.filter_sublist _) ih)

/-- `dedup_first` commutes with `filter`. -/
theorem dedup_first_filter (p : String → Bool) :
    ∀ l : List String, dedup_first (l.filter p) = (dedup_first l).filter p := by
  intro l
  induction l with
  | nil => simp [dedup_first]
  | cons a l ih =>
    by_cases hpa : p a
    · simp only [List.filter_cons, hpa, if_true, dedup_first, ih, List.filter_filter]
      congr 1
      apply List.filter_congr
      intro x _
      by_cases hxa : x = a <;> simp [hxa, hpa]
    · simp only [List.filter_cons, hpa, if_false, dedup_first, ih, Bool.false_eq_true,
        List.filter_filter]
      apply List.filter_congr
      intro x _
      by_cases hxa : x = a <;> simp [hxa, hpa]

/-- Running the collection loop from an arbitrary accumulator appends exactly
the first-occurrence deduplication of the qualifying, not-yet-collected
inputs. -/
theorem foldl_insert_new :
    ∀ (vs acc : List String),
      vs.foldl insert_new acc
        = acc ++ dedup_first (vs.filter
            (fun v => (v ≠ "" && hasMarker v) && !(acc.contains v))) := by
  intro vs
  induction vs with
  | nil => intro acc; simp [dedup_first]
  | cons a l ih =>
    intro acc
    by_cases hq : (a ≠ "" && hasMarker a && !(acc.contains a)) = true
    · have hstep : insert_new acc a = acc ++ [a] := by
        simp only [insert_new]
        rw [if_pos hq]
      have ha3 : (acc.contains a) = false := by
        have := (Bool.and_eq_true_iff.mp hq).2
        simpa using this
      calc (a :: l).foldl insert_new acc
          = l.foldl insert_new (acc ++ [a]) := by rw [List.foldl_cons, hstep]
        _ = (acc ++ [a]) ++ dedup_first (l.filter
              (fun v => v ≠ "" && hasMarker v && !((acc ++ [a]).contains v))) := ih _
        _ = acc ++ dedup_first ((a :: l).filter
              (fun v => v ≠ "" && hasMarker v && !(acc.contains v))) := by
            simp only [List.filter_cons, hq, if_true]
            show _ = acc ++ (a :: (dedup_first (l.filter _)).filter (fun x => x ≠ a))
            rw [← dedup_first_filter, List.filter_filter, List.append_assoc,
              List.singleton_append]
            congr 2
            congr 1
            apply List.filter_congr
            intro x _
            by_cases hxa : x = a
            · subst hxa
              simp [List.contains, ha3]
            · simp [List.contains, hxa, ha3]
    · have hstep : insert_new acc a = acc := by
        simp only [insert_new]
        rw [if_neg hq]
      calc (a :: l).foldl insert_new acc
          = l.foldl insert_new acc := by rw [List.foldl_cons, hstep]
        _ = acc ++ dedup_first (l.filter
              (fun v => v ≠ "" && hasMarker v && !(acc.contains v))) := ih _
        _ = acc ++ dedup_first ((a :: l).filter
              (fun v => v ≠ "" && hasMarker v && !(acc.contains v))) := by
            simp only [List.filter_cons, Bool.not_eq_true _ |>.mp hq,
              Bool.false_eq_true, if_false]

/-- CLAIM C5 — `_fetch_cookies_from_path` never raises: an exception or a
non-200 status yields the empty list, and a 200 response yields exactly the
stripped non-empty marker-carrying lines of the body, in order of first
occurrence, duplicates suppressed. -/
theorem fetch_cookies_from_path_spec :
    (fetch_cookies_from_path .exc = [])
    ∧ (∀ s body, s ≠ 200 → fetch_cookies_from_path (.resp s body) = [])
    ∧ (∀ body, fetch_cookies_from_path (.resp 200 body)
        = dedup_first (valid_lines body)) := by
  refine ⟨rfl, ?_, ?_⟩
  · intro s body hs
    simp [fetch_cookies_from_path, hs]
  · intro body
    show parse_cookie_body (pyStrip body) = _
    unfold parse_cookie_body valid_lines
    rw [← List.foldl_map pyStrip insert_new, foldl_insert_new]
    simp only [List.nil_append]
    congr 1
    apply List.filter_congr
    intro x _
    simp [List.contains]

/-- Witness for C5: a concrete non-200 fetch yields no credentials, and a
concrete 200 body is parsed to its deduplicated marker lines. -/
theorem fetch_cookies_from_path_spec_witness :
    fetch_cookies_from_path (.resp 404 "ndus=a") = []
    ∧ fetch_cookies_from_path (.resp 200 " ndus=a \nx\nndus=a\nndus=b")
        = ["ndus=a", "ndus=b"] := by
  constructor
  · exact fetch_cookies_from_path_spec.2.1 404 "ndus=a" (by decide)
  · rw [fetch_cookies_from_path_spec.2.2 " ndus=a \nx\nndus=a\nndus=b"]
    decide

/-! ## CredentialPool: `GithubCookieManager` state and operations

Network effects are passed in: `fr`/`fp`/`fd` stand for the (already parsed)
results of `_fetch_cookies_from_path` for the regular / premium / DM paths,
`config` for the `COOKIES` list from `config.py`, and `probeOf` maps each
credential to the outcome of its validation probe. -/

structure PoolState where
  cookies : List String
  current_cookie_index : Nat
  premium_cookies : List String
  current_premium_cookie_index : Nat
  dm_cookies : List String
  current_dm_cookie_index : Nat
  deriving Repr, DecidableEq

/-- Merge step of the periodic re-fetch inside `get_cookie` (cookie_config.py
lines 132-135): append a fetched cookie when non-empty and not yet present
(no marker check here, unlike `insert_new`). -/
def merge_new (acc : List String) (v : String) : List String :=
  if v ≠ "" && !(acc.contains v) then acc ++ [v] else acc

/-- Outcome of a rotation getter at the Python level: the returned value,
or the `IndexError` raised by `self.cookies[idx]` when the cursor is out of
bounds of a non-empty sequence — the cursor-advance line then never runs. -/
inductive PyResult (α : Type) : Type
  | ok (v : α) : PyResult α
  | indexError : PyResult α
  deriving Repr, DecidableEq

/-- `GithubCookieManager.get_cookie` (cookie_config.py lines 119-150).
`fetched = some gh` models the interval-triggered re-fetch returning `gh`;
`none` models the interval not being due.  Returns the handed-out cookie
(`.ok ""` on an empty tier, `.indexError` when the indexing at line 144
raises), the new tier sequence (the merge at lines 132-135 persists even
when the lookup then raises) and the new cursor (unchanged on a raise). -/
def get_cookie (fetched : Option (List String)) (cs : List String) (i : Nat) :
    PyResult String × List String × Nat :=
  let cs := match fetched with
    | some gh => gh.foldl merge_new cs
    | none => cs
  if cs.isEmpty then (.ok "", cs, i)
  else if h : i < cs.length then (.ok cs[i], cs, (i + 1) % cs.length)
  else (.indexError, cs, i)

/-- `GithubCookieManager.get_premium_cookie` (lines 152-183); same rotation
as `get_cookie`, on the premium tier, with the same `IndexError` path at
line 177. -/
def get_premium_cookie (fetched : Option (List String)) (cs : List String) (i : Nat) :
    PyResult String × List String × Nat :=
  let cs := match fetched with
    | some gh => gh.foldl merge_new cs
    | none => cs
  if cs.isEmpty then (.ok "", cs, i)
  else if h : i < cs.length then (.ok cs[i], cs, (i + 1) % cs.length)
  else (.indexError, cs, i)

/-- `GithubCookieManager.get_next_dm_cookie_with_retry` (lines 185-211):
returns the cookie together with the index it held before advancing,
`(None, None)` on an empty tier, or the `IndexError` raised at line 206 on
an out-of-bounds cursor (cursor then unchanged). -/
def get_next_dm_cookie_with_retry (fetched : Option (List String))
    (cs : List String) (i : Nat) :
    PyResult (Option (String × Nat)) × List String × Nat :=
  let cs := match fetched with
    | some gh => gh.foldl merge_new cs
    | none => cs
  if cs.isEmpty then (.ok none, cs, i)
  else if h : i < cs.length then (.ok (some (cs[i], i)), cs, (i + 1) % cs.length)
  else (.indexError, cs, i)

/-- `GithubCookieManager.initialize_cookies` (cookie_config.py lines
100-117): replace all three tiers with the fetch results, append qualifying
config cookies to the regular tier, and fall back to the first config cookie
when the regular tier would otherwise end up empty.  Cursors are untouched. -/
def initialize_cookies (config : List String) (fr fp fd : List String)
    (s : PoolState) : PoolState :=
  let cookies := config.foldl insert_new fr
  let cookies := match config with
    | [] => cookies
    | c0 :: _ => if cookies.isEmpty then cookies ++ [c0] else cookies
  { s with cookies := cookies, premium_cookies := fp, dm_cookies := fd }

/-- `GithubCookieManager.force_refresh` (lines 213-219) just calls
`initialize_cookies`. -/
def force_refresh (config : List String) (fr fp fd : List String)
    (s : PoolState) : PoolState :=
  initialize_cookies config fr fp fd s

/-- `GithubCookieManager.force_refresh_dm_cookies` (lines 221-232): replace
the DM tier with the fetch result and reset the cursor only when it is out
of bounds. -/
def force_refresh_dm_cookies (fd : List String) (s : PoolState) : PoolState :=
  let dm := fd
  { s with
    dm_cookies := dm,
    current_dm_cookie_index :=
      if s.current_dm_cookie_index ≥ dm.length then 0
      else s.current_dm_cookie_index }

/-- Outcome of the validation probe issued by `validate_cookie`: a raised
network error, or the probe page's body. -/
inductive ProbeResult : Type
  | netError : ProbeResult
  | page (body : String) : ProbeResult
  deriving Repr, DecidableEq

/-- `GithubCookieManager.validate_cookie` (cookie_config.py lines 234-259):
a login/password page is a confirmed negative, a dlink/download page a
confirmed positive, anything else — including a raised network error — is
reported as `False`. -/
def validate_cookie : ProbeResult → Bool
  | .netError => false
  | .page text =>
    if strContains (pyLower text) "login" && strContains (pyLower text) "password"
    then false
    else if strContains text "dlink" || strContains (pyLower text) "download"
    then true
    else false

/-- Per-tier body of `validate_all_cookies` (cookie_config.py lines 270-296):
keep the cookies whose probe validated, and reset the cursor to 0 when it is
at or past the new length. -/
def validate_tier (probeOf : String → ProbeResult) (cs : List String)
    (idx : Nat) : List String × Nat :=
  let valid := cs.filter (fun c => validate_cookie (probeOf c))
  (valid, if idx ≥ valid.length then 0 else idx)

/-- `GithubCookieManager.validate_all_cookies` (lines 261-304) applied to the
whole pool. -/
def validate_all_cookies (probeOf : String → ProbeResult) (s : PoolState) :
    PoolState :=
  { cookies := (validate_tier probeOf s.cookies s.current_cookie_index).1
    current_cookie_index := (validate_tier probeOf s.cookies s.current_cookie_index).2
    premium_cookies := (validate_tier probeOf s.premium_cookies s.current_premium_cookie_index).1
    current_premium_cookie_index := (validate_tier probeOf s.premium_cookies s.current_premium_cookie_index).2
    dm_cookies := (validate_tier probeOf s.dm_cookies s.current_dm_cookie_index).1
    current_dm_cookie_index := (validate_tier probeOf s.dm_cookies s.current_dm_cookie_index).2 }

/-- CLAIM C1 counterexample — a tier holding one credential whose probe
raises a network error (an inconclusive result) shrinks after validation:
`validate_cookie` maps the exception to `False` and the credential is
evicted, so the claim "an inconclusive probe never reduces tier size" fails. -/
theorem validate_netError_reduces_tier :
    ((validate_tier (fun _ => .netError) ["ndus=c1"] 0).1).length
      < (["ndus=c1"] : List String).length := by
  decide

/-- CLAIM C1 (amended) — after `validate_all_cookies` a tier retains exactly
the credentials whose probe returned a confirmed-positive page; a credential
whose probe raised a network error is evicted (it is NOT protected by the
inconclusiveness of the probe). -/
theorem validate_tier_evicts_unconfirmed (probeOf : String → ProbeResult)
    (cs : List String) (idx : Nat) :
    (validate_tier probeOf cs idx).1
        = cs.filter (fun c => validate_cookie (probeOf c))
    ∧ (∀ c, probeOf c = .netError → c ∉ (validate_tier probeOf cs idx).1) := by
  refine ⟨rfl, ?_⟩
  intro c hc hmem
  have hval := (List.mem_filter.mp hmem).2
  rw [hc] at hval
  simp [validate_cookie] at hval

/-- Witness for the amended C1 at a concrete pool. -/
theorem validate_tier_evicts_unconfirmed_witness :
    "ndus=c1" ∉ (validate_tier (fun _ => ProbeResult.netError) ["ndus=c1"] 0).1 :=
  (validate_tier_evicts_unconfirmed (fun _ => ProbeResult.netError)
    ["ndus=c1"] 0).2 "ndus=c1" rfl

/-- A concrete pool state with a non-zero regular cursor, used to exhibit
that `force_refresh` does not reset cursors. -/
def samplePool : PoolState :=
  { cookies := ["ndus=old1", "ndus=old2"]
    current_cookie_index := 1
    premium_cookies := []
    current_premium_cookie_index := 0
    dm_cookies := []
    current_dm_cookie_index := 0 }

/-- CLAIM C2 counterexample — after a `force_refresh` whose fetch result
`["ndus=a"]` is non-empty (config holding a marker cookie `"ndus=z"`), the
regular cursor is still 1, not 0, and the sequence is the fetch result plus
the config cookie, not the fetch result alone. -/
theorem force_refresh_keeps_cursor :
    ((force_refresh ["ndus=z"] ["ndus=a"] [] [] samplePool).current_cookie_index ≠ 0)
    ∧ ((force_refresh ["ndus=z"] ["ndus=a"] [] [] samplePool).cookies
        ≠ ["ndus=a"]) := by
  decide

/-- CLAIM C2 (amended) — after `force_refresh` with a non-empty regular fetch
result `fr`, the regular tier equals `fr` followed by the first occurrences
of qualifying config cookies not already in `fr`; premium and DM tiers equal
their fetch results; all three cursors are UNCHANGED (never reset).  The
static fallback (first config cookie) is used only when the fetch result is
empty and no config cookie qualifies, regardless of the previous sequence.
`force_refresh_dm_cookies` sets the DM tier to its fetch result and resets
the DM cursor to 0 only when it is at or past the new length. -/
theorem force_refresh_amended (config fr fp fd : List String) (s : PoolState)
    (hfr : fr ≠ []) :
    (force_refresh config fr fp fd s).cookies
      = fr ++ dedup_first (config.filter
          (fun v => v ≠ "" && hasMarker v && !(fr.contains v)))
    ∧ (force_refresh config fr fp fd s).premium_cookies = fp
    ∧ (force_refresh config fr fp fd s).dm_cookies = fd
    ∧ (force_refresh config fr fp fd s).current_cookie_index
        = s.current_cookie_index
    ∧ (force_refresh config fr fp fd s).current_premium_cookie_index
        = s.current_premium_cookie_index
    ∧ (force_refresh config fr fp fd s).current_dm_cookie_index
        = s.current_dm_cookie_index
    ∧ (∀ fd2, (force_refresh_dm_cookies fd2 s).dm_cookies = fd2
        ∧ (force_refresh_dm_cookies fd2 s).current_dm_cookie_index
            = if s.current_dm_cookie_index ≥ fd2.length then 0
              else s.current_dm_cookie_index)
    ∧ (∀ c0 ctl, config = c0 :: ctl →
        (∀ c ∈ config, ¬(c ≠ "" && hasMarker c) = true) →
        (force_refresh config [] fp fd s).cookies = [c0]) := by
  have hmerge : (force_refresh config fr fp fd s).cookies
      = fr ++ dedup_first (config.filter
          (fun v => v ≠ "" && hasMarker v && !(fr.contains v))) := by
    show (initialize_cookies config fr fp fd s).cookies = _
    unfold initialize_cookies
    rw [foldl_insert_new]
    have hne : (fr ++ dedup_first (config.filter
        (fun v => v ≠ "" && hasMarker v && !(fr.contains v)))).isEmpty = false := by
      cases fr with
      | nil => exact absurd rfl hfr
      | cons a t => rfl
    cases config with
    | nil => rfl
    | cons c0 ctl => simp only [hne, Bool.false_eq_true, if_false]
  refine ⟨hmerge, rfl, rfl, rfl, rfl, rfl, ?_, ?_⟩
  · intro fd2
    exact ⟨rfl, rfl⟩
  · intro c0 ctl hconfig hnone
    show (initialize_cookies config [] fp fd s).cookies = [c0]
    unfold initialize_cookies
    rw [foldl_insert_new]
    have hfilter : config.filter
        (fun v => v ≠ "" && hasMarker v && !(List.contains [] v)) = [] := by
      rw [List.filter_eq_nil_iff]
      intro a ha
      have := hnone a ha
      cases h1 : (a ≠ "" : Bool) <;> cases h2 : hasMarker a <;> simp_all
    subst hconfig
    rw [hfilter]
    rfl

/-- Witness for the amended C2 at a concrete pool: after refreshing
`samplePool` with fetch `["ndus=a"]` and config `["ndus=z"]`, the cursor is
still 1 and the sequence is `["ndus=a", "ndus=z"]`. -/
theorem force_refresh_amended_witness :
    (force_refresh ["ndus=z"] ["ndus=a"] [] [] samplePool).current_cookie_index = 1
    ∧ (force_refresh ["ndus=z"] ["ndus=a"] [] [] samplePool).cookies
        = ["ndus=a", "ndus=z"] := by
  have h := force_refresh_amended ["ndus=z"] ["ndus=a"] [] [] samplePool (by decide)
  refine ⟨?_, ?_⟩
  · rw [h.2.2.2.1]
    rfl
  · rw [h.1]
    decide

/-! ## Cursor invariant (C4) -/

/-- The tier invariant from the spec's data model: whenever the sequence is
non-empty the cursor is a valid index into it. -/
def tier_invariant (cs : List String) (idx : Nat) : Prop :=
  cs ≠ [] → idx < cs.length

/-- `get_cookie` with no interval fetch, on an empty tier: returns `""` and
leaves sequence and cursor unchanged. -/
theorem get_cookie_none_of_empty (cs : List String) (j : Nat)
    (he : cs.isEmpty = true) :
    get_cookie none cs j = (.ok "", cs, j) := by
  unfold get_cookie
  simp [he]

/-- `get_cookie` with no interval fetch, cursor in bounds: hands out the
cookie under the cursor and advances it modulo the length. -/
theorem get_cookie_none_of_lt (cs : List String) (j : Nat)
    (hj : j < cs.length) :
    get_cookie none cs j = (.ok (cs.getD j ""), cs, (j + 1) % cs.length) := by
  have he : cs.isEmpty = false := by
    cases cs with
    | nil => simp at hj
    | cons a t => rfl
  unfold get_cookie
  simp [he, hj, List.getD_eq_getElem cs "" hj]

/-- `get_cookie` with no interval fetch, non-empty tier but out-of-bounds
cursor: the lookup raises `IndexError` and the cursor is not advanced. -/
theorem get_cookie_none_of_oob (cs : List String) (j : Nat)
    (he : cs.isEmpty = false) (hj : ¬ j < cs.length) :
    get_cookie none cs j = (.indexError, cs, j) := by
  unfold get_cookie
  simp [he, hj]

/-- CLAIM C4 counterexample — the state (empty premium tier, stale cursor 1)
satisfies the invariant vacuously, and is reachable: `force_refresh` replaces
a tier with an empty fetch result without resetting its cursor.  A later
`get_premium_cookie` whose interval merge appends one cookie then raises
`IndexError` at `self.premium_cookies[1]`, leaving the cursor out of bounds
of the now non-empty sequence — the round-robin advance does not preserve the
invariant. -/
theorem rotation_advance_breaks_invariant :
    tier_invariant [] 1
    ∧ (get_premium_cookie (some ["ndus=c"]) [] 1).1 = PyResult.indexError
    ∧ ¬ tier_invariant (get_premium_cookie (some ["ndus=c"]) [] 1).2.1
        (get_premium_cookie (some ["ndus=c"]) [] 1).2.2 := by
  refine ⟨?_, ?_, ?_⟩
  · intro hne
    exact absurd rfl hne
  · decide
  · intro hinv
    exact absurd (hinv (by decide)) (by decide)

/-- CLAIM C4 (amended) — validator eviction (`validate_tier`, the per-tier
body of `validate_all_cookies`) and `force_refresh_dm_cookies` preserve the
tier invariant, resetting the cursor to 0 exactly when it ends at or past
the new length and never leaving it out of bounds; the round-robin advance
(`get_cookie`, with or without the interval merge) preserves the invariant
whenever the lookup does not raise, but when it raises `IndexError` — an
interval merge turning an empty tier non-empty under a stale out-of-bounds
cursor — the cursor is left unchanged and out of bounds of the non-empty
merged sequence. -/
theorem pool_cursor_invariant_amended (cs : List String) (idx : Nat)
    (h : tier_invariant cs idx) :
    (∀ fetched, (get_cookie fetched cs idx).1 ≠ .indexError →
        tier_invariant (get_cookie fetched cs idx).2.1
          (get_cookie fetched cs idx).2.2)
    ∧ (∀ fetched, (get_cookie fetched cs idx).1 = .indexError →
        (get_cookie fetched cs idx).2.2 = idx
        ∧ (get_cookie fetched cs idx).2.1 ≠ []
        ∧ ¬ (get_cookie fetched cs idx).2.2
              < (get_cookie fetched cs idx).2.1.length)
    ∧ (∀ probeOf, tier_invariant (validate_tier probeOf cs idx).1
        (validate_tier probeOf cs idx).2)
    ∧ (∀ probeOf,
        idx ≥ (cs.filter (fun c => validate_cookie (probeOf c))).length →
        (validate_tier probeOf cs idx).2 = 0)
    ∧ (∀ fd s, tier_invariant (force_refresh_dm_cookies fd s).dm_cookies
        (force_refresh_dm_cookies fd s).current_dm_cookie_index)
    ∧ (∀ fd s, s.current_dm_cookie_index ≥ fd.length →
        (force_refresh_dm_cookies fd s).current_dm_cookie_index = 0) := by
  have hcore : ∀ (cs2 : List String) (j : Nat),
      ((get_cookie none cs2 j).1 ≠ .indexError →
        tier_invariant (get_cookie none cs2 j).2.1 (get_cookie none cs2 j).2.2)
      ∧ ((get_cookie none cs2 j).1 = .indexError →
        (get_cookie none cs2 j).2.2 = j
        ∧ (get_cookie none cs2 j).2.1 ≠ []
        ∧ ¬ (get_cookie none cs2 j).2.2 < (get_cookie none cs2 j).2.1.length) := by
    intro cs2 j
    by_cases he : cs2.isEmpty
    · rw [get_cookie_none_of_empty cs2 j he]
      constructor
      · intro _ hne2
        exact absurd (List.isEmpty_iff.mp he) hne2
      · intro hcontra
        exact absurd hcontra (by simp)
    · have he2 : cs2.isEmpty = false := Bool.not_eq_true _ |>.mp he
      by_cases hlt : j < cs2.length
      · rw [get_cookie_none_of_lt cs2 j hlt]
        constructor
        · intro _ _
          exact Nat.mod_lt _ (by omega)
        · intro hcontra
          exact absurd hcontra (by simp)
      · rw [get_cookie_none_of_oob cs2 j he2 hlt]
        constructor
        · intro hcontra
          exact absurd rfl hcontra
        · intro _
          exact ⟨rfl, by simpa using he2, hlt⟩
  refine ⟨?_, ?_, ?_, ?_, ?_, ?_⟩
  · intro fetched
    cases fetched with
    | none => exact (hcore cs idx).1
    | some gh => exact (hcore (gh.foldl merge_new cs) idx).1
  · intro fetched
    cases fetched with
    | none => exact (hcore cs idx).2
    | some gh => exact (hcore (gh.foldl merge_new cs) idx).2
  · intro probeOf
    unfold validate_tier tier_invariant
    intro hne
    have hlen : 0 < (cs.filter (fun c => validate_cookie (probeOf c))).length :=
      List.length_pos.mpr hne
    by_cases hidx : idx ≥ (cs.filter (fun c => validate_cookie (probeOf c))).length
    · simpa [hidx] using hlen
    · simpa [hidx] using Nat.lt_of_not_le hidx
  · intro probeOf hge
    unfold validate_tier
    simp [hge]
  · intro fd s
    unfold force_refresh_dm_cookies tier_invariant
    intro hne
    have hlen : 0 < fd.length := List.length_pos.mpr hne
    by_cases hidx : s.current_dm_cookie_index ≥ fd.length
    · simpa [hidx] using hlen
    · simpa [hidx] using Nat.lt_of_not_le hidx
  · intro fd s hge
    unfold force_refresh_dm_cookies
    simp [hge]

/-- Witness for the amended C4 at a concrete tier: an eviction that removes
the cookie under a cursor equal to the new length resets the cursor to 0,
in bounds. -/
theorem pool_cursor_invariant_amended_witness :
    (validate_tier (fun c => if c = "ndus=good" then .page "has dlink here"
        else .netError) ["ndus=bad", "ndus=good"] 1).2 = 0 := by
  have h := pool_cursor_invariant_amended ["ndus=bad", "ndus=good"] 1
    (by intro _; decide)
  exact h.2.2.2.1 (fun c => if c = "ndus=good" then .page "has dlink here"
    else .netError) (by decide)

/-! ## Round-robin fairness (C3)

A run of consecutive `get_cookie` calls during which no refresh occurs
(`fetched = none`) and no eviction runs: the tier sequence is fixed, only the
cursor moves. -/

/-- The string a `get_cookie` call hands out (`""` stands for the raised
`IndexError`, which the in-bounds runs below never produce). -/
def handed_cookie : PyResult String → String
  | .ok c => c
  | .indexError => ""

/-- The cookie handed out and cursor reached by `k` consecutive no-refresh
`get_cookie` calls starting at cursor `i`. -/
def rr_run (cs : List String) : Nat → Nat → List String
  | _, 0 => []
  | i, k + 1 =>
    handed_cookie (get_cookie none cs i).1 :: rr_run cs (get_cookie none cs i).2.2 k

/-- A no-refresh run is the range-indexed walk of the sequence. -/
theorem rr_run_eq_map (cs : List String) (h : cs ≠ []) :
    ∀ (k i : Nat), i < cs.length →
      rr_run cs i k
        = (List.range k).map (fun j => cs.getD ((i + j) % cs.length) "") := by
  intro k
  induction k with
  | zero => intro i _; simp [rr_run]
  | succ k ih =>
    intro i hi
    have hlen : 0 < cs.length := List.length_pos.mpr h
    rw [rr_run, get_cookie_none_of_lt cs i hi]
    rw [List.range_succ_eq_map, List.map_cons, List.map_map,
      ih ((i + 1) % cs.length) (Nat.mod_lt _ hlen)]
    congr 1
    · show cs.getD i "" = cs.getD ((i + 0) % cs.length) ""
      rw [Nat.add_zero, Nat.mod_eq_of_lt hi]
    · apply List.map_congr_left
      intro j _
      show cs.getD (((i + 1) % cs.length + j) % cs.length) "" = _
      rw [Nat.mod_add_mod]
      rw [show i + 1 + j = i + (j + 1) from by omega]
      rfl

/-- One full cycle starting at cursor `i` is a rotation of the sequence. -/
theorem rr_run_cycle (cs : List String) (h : cs ≠ []) (i : Nat)
    (hi : i < cs.length) :
    rr_run cs i cs.length = cs.drop i ++ cs.take i := by
  rw [rr_run_eq_map cs h cs.length i hi]
  have hlen : 0 < cs.length := List.length_pos.mpr h
  apply List.ext_getElem
  · simp
    omega
  · intro j h1 h2
    simp only [List.getElem_map, List.getElem_range]
    have hj : j < cs.length := by simpa using h1
    rw [List.getElem_append]
    by_cases hcase : j < (cs.drop i).length
    · rw [dif_pos hcase, List.getElem_drop,
        ← List.getD_eq_getElem cs "" (by simp at hcase; omega)]
      congr 1
      rw [Nat.mod_eq_of_lt (by simp at hcase; omega)]
    · rw [dif_neg hcase]
      have hge : cs.length - i ≤ j := by simpa using Nat.le_of_not_lt hcase
      simp only [List.getElem_take, List.length_drop]
      rw [← List.getD_eq_getElem cs "" (by omega)]
      congr 1
      rw [Nat.mod_eq_sub_mod (by omega), Nat.mod_eq_of_lt (by omega)]
      omega

/-- The cursor returns to its start after a full cycle, so runs decompose. -/
theorem rr_run_add (cs : List String) (h : cs ≠ []) (i : Nat)
    (hi : i < cs.length) (m : Nat) :
    rr_run cs i (cs.length + m) = rr_run cs i cs.length ++ rr_run cs i m := by
  rw [rr_run_eq_map cs h (cs.length + m) i hi, rr_run_eq_map cs h cs.length i hi,
    rr_run_eq_map cs h m i hi, List.range_add, List.map_append, List.map_map]
  congr 1
  apply List.map_congr_left
  intro j _
  show cs.getD ((i + (cs.length + j)) % cs.length) "" = _
  congr 1
  conv_lhs => rw [show i + (cs.length + j) = (i + j) + cs.length by omega]
  rw [Nat.add_mod_right]

/-- CLAIM C3 — with a fixed non-empty deduplicated tier of size `S` and no
refresh or eviction during the run, `N * S` consecutive next-credential
calls hand out every credential exactly `N` times, the cursor advancing
modulo `S` on each call; `get_premium_cookie` and
`get_next_dm_cookie_with_retry` advance identically. -/
theorem round_robin_fair (cs : List String) (i N : Nat) (c : String)
    (hne : cs ≠ []) (hnd : cs.Nodup) (hi : i < cs.length) (hc : c ∈ cs)
    (hN : 1 ≤ N) :
    (rr_run cs i (N * cs.length)).count c = N
    ∧ (∀ j, j < cs.length →
        (get_cookie none cs j).2.2 = (j + 1) % cs.length)
    ∧ (∀ j, get_premium_cookie none cs j = get_cookie none cs j)
    ∧ (∀ j, j < cs.length →
        get_next_dm_cookie_with_retry none cs j
          = (.ok (some (cs.getD j "", j)), cs, (j + 1) % cs.length)) := by
  refine ⟨?_, ?_, ?_, ?_⟩
  · induction N with
    | zero => omega
    | succ n ihn =>
      have hcycle : (rr_run cs i cs.length).count c = 1 := by
        rw [rr_run_cycle cs hne i hi]
        rw [List.count_append]
        have : (cs.take i).count c + (cs.drop i).count c = cs.count c := by
          rw [← List.count_append, List.take_append_drop]
        have hcnt : cs.count c = 1 := List.count_eq_one_of_mem hnd hc
        omega
      cases n with
      | zero =>
        simpa using hcycle
      | succ m =>
        have hrec := ihn (by omega)
        have : (m + 1 + 1) * cs.length = cs.length + (m + 1) * cs.length := by ring
        rw [this, rr_run_add cs hne i hi, List.count_append, hcycle, hrec]
        omega
  · intro j hj
    rw [get_cookie_none_of_lt cs j hj]
  · intro j
    rfl
  · intro j hj
    have he : cs.isEmpty = false := List.isEmpty_eq_false.mpr hne
    unfold get_next_dm_cookie_with_retry
    simp [he, hj, List.getD_eq_getElem cs "" hj]

/-- Witness for C3: a two-credential tier visited four times hands out each
credential exactly twice. -/
theorem round_robin_fair_witness :
    (rr_run ["ndus=a", "ndus=b"] 0 4).count "ndus=a" = 2 := by
  have h := round_robin_fair ["ndus=a", "ndus=b"] 0 2 "ndus=a"
    (by decide) (by decide) (by decide) (by decide) (by decide)
  simpa using h.1

/-! ## `find_between` (C10) -/

/-- The head of a filtered initial segment of the naturals is the least index
below the bound satisfying the predicate. -/
theorem head_filter_range_eq_some (n : Nat) :
    ∀ (q : Nat → Bool) (i : Nat),
      ((List.range n).filter q).head? = some i
        ↔ q i = true ∧ i < n ∧ ∀ j, j < i → q j = false := by
  induction n with
  | zero =>
    intro q i
    simp
  | succ n ihn =>
    intro q i
    rw [List.range_succ_eq_map, List.filter_cons]
    by_cases hq0 : q 0
    · simp only [hq0, if_pos rfl, List.head?_cons]
      constructor
      · rintro h
        have : i = 0 := by simpa using h.symm
        subst this
        exact ⟨hq0, Nat.succ_pos n, fun j hj => absurd hj (Nat.not_lt_zero j)⟩
      · rintro ⟨hqi, _, hmin⟩
        by_cases hi0 : i = 0
        · simp [hi0]
        · have := hmin 0 (Nat.pos_of_ne_zero hi0)
          rw [this] at hq0
          cases hq0
    · have hq0' : q 0 = false := Bool.not_eq_true _ |>.mp hq0
      simp only [hq0', Bool.false_eq_true, if_false, List.filter_map, List.head?_map,
        Function.comp_def]
      constructor
      · intro h
        cases hk : (List.filter (fun x => q (Nat.succ x)) (List.range n)).head? with
        | none =>
          rw [hk] at h
          simp at h
        | some k =>
          rw [hk] at h
          have hik : i = k + 1 := by simpa using h.symm
          have hrec := (ihn _ k).mp hk
          subst hik
          refine ⟨hrec.1, by omega, ?_⟩
          intro j hj
          cases j with
          | zero => exact hq0'
          | succ m => exact hrec.2.2 m (by omega)
      · rintro ⟨hqi, hin, hmin⟩
        cases i with
        | zero => rw [hqi] at hq0'; cases hq0'
        | succ m =>
          have hrec : (List.filter (fun x => q (Nat.succ x)) (List.range n)).head?
              = some m :=
            (ihn _ m).mpr ⟨hqi, by omega, fun j hj => hmin (j + 1) (by omega)⟩
          rw [hrec]
          rfl

/-- The filtered initial segment is empty exactly when nothing below the
bound satisfies the predicate. -/
theorem head_filter_range_eq_none (n : Nat) (q : Nat → Bool) :
    ((List.range n).filter q).head? = none ↔ ∀ i, i < n → q i = false := by
  rw [List.head?_eq_none_iff, List.filter_eq_nil_iff]
  constructor
  · intro h i hi
    have := h i (List.mem_range.mpr hi)
    simpa using this
  · intro h i hi
    have := h i (List.mem_range.mp hi)
    simp [this]

/-- `p` occurs in `t` at position `i` (fully contained in `t`). -/
def OccursAt (p t : List Char) (i : Nat) : Prop :=
  i ≤ t.length ∧ p.isPrefixOf (t.drop i) = true

instance (p t : List Char) (i : Nat) : Decidable (OccursAt p t i) := by
  unfold OccursAt
  infer_instance

theorem strFindFrom_some (p t : List Char) (start i : Nat) :
    strFindFrom p t start = some i
      ↔ start ≤ i ∧ OccursAt p t i
          ∧ ∀ j, start ≤ j → j < i → ¬ OccursAt p t j := by
  unfold strFindFrom
  rw [head_filter_range_eq_some]
  constructor
  · rintro ⟨hqi, hin, hmin⟩
    have h1 := Bool.and_eq_true_iff.mp hqi
    refine ⟨by simpa using h1.1, ⟨by omega, h1.2⟩, ?_⟩
    rintro j hsj hji ⟨hjle, hjpre⟩
    have hq := hmin j hji
    rw [decide_eq_true hsj, hjpre] at hq
    exact Bool.noConfusion hq
  · rintro ⟨hsi, ⟨hile, hipre⟩, hmin⟩
    refine ⟨?_, by omega, ?_⟩
    · rw [decide_eq_true hsi, hipre]
      rfl
    · intro j hji
      by_cases hsj : start ≤ j
      · rw [decide_eq_true hsj, Bool.true_and]
        cases hjpre : p.isPrefixOf (t.drop j) with
        | false => rfl
        | true => exact absurd ⟨by omega, hjpre⟩ (hmin j hsj hji)
      · have : (start ≤ j : Prop) = False := eq_false hsj
        simp [hsj]

theorem strFindFrom_none (p t : List Char) (start : Nat) :
    strFindFrom p t start = none ↔ ∀ i, start ≤ i → ¬ OccursAt p t i := by
  unfold strFindFrom
  rw [head_filter_range_eq_none]
  constructor
  · rintro h i hsi ⟨hile, hipre⟩
    have hq := h i (by omega)
    rw [decide_eq_true hsi, hipre] at hq
    exact Bool.noConfusion hq
  · intro h i hin
    by_cases hsi : start ≤ i
    · rw [decide_eq_true hsi, Bool.true_and]
      cases hipre : p.isPrefixOf (t.drop i) with
      | false => rfl
      | true => exact absurd ⟨by omega, hipre⟩ (h i hsi)
    · simp [hsi]

/-- CLAIM C10 — `find_between` is total: whenever the first marker never
occurs, or no occurrence of the second marker follows the first occurrence
of the first marker, the result is `""`; and when `i` is the first
occurrence of `first` and `e` the first occurrence of `last` at or after
`i + first.length`, the result is the substring strictly between them. -/
theorem find_between_spec (text first last : String) :
    ((∀ i, ¬ OccursAt first.toList text.toList i) →
        find_between text first last = "")
    ∧ (∀ i, OccursAt first.toList text.toList i →
        (∀ j, j < i → ¬ OccursAt first.toList text.toList j) →
        ((∀ e, i + first.length ≤ e → ¬ OccursAt last.toList text.toList e) →
            find_between text first last = "")
        ∧ (∀ e, OccursAt last.toList text.toList e → i + first.length ≤ e →
            (∀ j, j < e → i + first.length ≤ j →
              ¬ OccursAt last.toList text.toList j) →
            find_between text first last
              = String.mk ((text.toList.take e).drop (i + first.length)))) := by
  constructor
  · intro habs
    unfold find_between
    rw [show strFindFrom first.toList text.toList 0 = none from
      (strFindFrom_none _ _ 0).mpr (fun i _ => habs i)]
  · intro i hocc hfirst
    have hfind : strFindFrom first.toList text.toList 0 = some i :=
      (strFindFrom_some _ _ 0 i).mpr
        ⟨Nat.zero_le i, hocc, fun j _ hji => hfirst j hji⟩
    constructor
    · intro habs
      unfold find_between
      rw [hfind]
      show (match strFindFrom last.toList text.toList (i + first.length) with
        | none => ""
        | some e0 => String.mk ((text.toList.take e0).drop (i + first.length))) = ""
      rw [show strFindFrom last.toList text.toList (i + first.length) = none from
        (strFindFrom_none _ _ _).mpr habs]
    · intro e hocce hle hmin
      unfold find_between
      rw [hfind]
      show (match strFindFrom last.toList text.toList (i + first.length) with
        | none => ""
        | some e0 => String.mk ((text.toList.take e0).drop (i + first.length)))
        = String.mk ((text.toList.take e).drop (i + first.length))
      rw [show strFindFrom last.toList text.toList (i + first.length) = some e from
        (strFindFrom_some _ _ _ e).mpr
          ⟨hle, hocce, fun j hsj hje => hmin j hje hsj⟩]

/-- Witness for C10 at a concrete extraction: `find_between "a[x]b" "[" "]"`
is `"x"`, obtained from the first occurrences of both markers. -/
theorem find_between_spec_witness : find_between "a[x]b" "[" "]" = "x" := by
  have h := (find_between_spec "a[x]b" "[" "]").2 1 (by decide)
    (by decide)
  have h2 := h.2 3 (by decide) (by decide) (by decide)
  rw [h2]
  rfl

/-! ## Retry policy (C6): `robust_get` vs the single-attempt credential fetch

A run of HTTP attempts is a stream `outcomes : Nat → ReqOut`; attempt `n`
either raises a `requests.exceptions.ConnectionError` (`conn`) or returns a
response. -/

inductive ReqOut : Type
  | conn : ReqOut
  | resp (status : Nat) (body : String) : ReqOut
  deriving Repr, DecidableEq

/-- Result of `robust_get`: a returned response, a re-raised connection
error after the last attempt, or the implicit `None` when `retries = 0`
makes the loop body never run. -/
inductive RgRes : Type
  | got (status : Nat) (body : String) : RgRes
  | raisedConn : RgRes
  | noneResult : RgRes
  deriving Repr, DecidableEq

/-- The loop of `robust_get` (get-m3u8-stream.py lines 597-604), together
with the `time.sleep(backoff ** attempt)` schedule it executes.  `attempt`
is the current iteration index, `rem` the remaining iterations. -/
def robust_get_aux (outcomes : Nat → ReqOut) (backoff : Nat) :
    Nat → Nat → RgRes × List Nat
  | _, 0 => (.noneResult, [])
  | attempt, rem + 1 =>
    match outcomes attempt with
    | .resp s b => (.got s b, [])
    | .conn =>
      if rem = 0 then (.raisedConn, [])
      else
        let r := robust_get_aux outcomes backoff (attempt + 1) rem
        (r.1, backoff ^ attempt :: r.2)

/-- `robust_get(*args, retries=3, backoff=2, **kwargs)`. -/
def robust_get (outcomes : Nat → ReqOut) (retries backoff : Nat) :
    RgRes × List Nat :=
  robust_get_aux outcomes backoff 0 retries

/-- The single `requests.get` of `_fetch_cookies_from_path`, viewed over an
attempt stream: only attempt 0 is ever issued, its exception caught. -/
def credOutOfReq : ReqOut → CredOut
  | .conn => .exc
  | .resp s b => .resp s b

/-- `_fetch_cookies_from_path` consumes exactly one attempt. -/
def fetch_cookies_single (outcomes : Nat → ReqOut) : List String :=
  fetch_cookies_from_path (credOutOfReq (outcomes 0))

/-- Modelled from the spec: the claim's retrying credential fetch, which
would wrap the credential GET in the bounded retry policy (default 3
attempts, exponential backoff) before parsing; no such wrapper exists in
`cookie_config.py`. -/
def fetch_cookies_retrying (outcomes : Nat → ReqOut) (retries backoff : Nat) :
    List String :=
  match (robust_get outcomes retries backoff).1 with
  | .got s b => if s = 200 then parse_cookie_body (pyStrip b) else []
  | _ => []

/-- CLAIM C6 counterexample — an attempt stream whose first attempt raises a
connection error and whose second would return valid credentials: the
retrying fetch the claim describes would recover them, but the credential
fetch in the code returns `[]` (it never retries).  Moreover the backoff
schedule of `robust_get` starts at `2 ** 0 = 1` second, not 2. -/
theorem credential_fetch_does_not_retry :
    fetch_cookies_single (fun n => if n = 0 then .conn else .resp 200 "ndus=a") = []
    ∧ fetch_cookies_retrying
        (fun n => if n = 0 then .conn else .resp 200 "ndus=a") 3 2 = ["ndus=a"]
    ∧ (robust_get (fun _ => .conn) 3 2).2 = [1, 2] := by
  refine ⟨rfl, ?_, rfl⟩
  decide

/-- CLAIM C6 (amended) — the credential fetch makes exactly one attempt:
its result depends only on attempt 0, a connection error or a non-200
status each yield `[]` with no retry.  Separately, `robust_get` (used for
streaming requests) retries only connection errors: it returns the first
response outcome unchanged — a non-2xx response is never retried — after
sleeping `backoff ** attempt` seconds per failed attempt (1s then 2s at the
defaults), and re-raises when all `retries` attempts raise. -/
theorem retry_policy_amended :
    (∀ o o' : Nat → ReqOut, o 0 = o' 0 →
        fetch_cookies_single o = fetch_cookies_single o')
    ∧ (∀ o : Nat → ReqOut, o 0 = .conn → fetch_cookies_single o = [])
    ∧ (∀ (o : Nat → ReqOut) s b, o 0 = .resp s b → s ≠ 200 →
        fetch_cookies_single o = [])
    ∧ (∀ (o : Nat → ReqOut) retries backoff k s b, k < retries →
        (∀ j, j < k → o j = .conn) → o k = .resp s b →
        robust_get o retries backoff
          = (.got s b, (List.range k).map (fun j => backoff ^ j)))
    ∧ (∀ (o : Nat → ReqOut) retries backoff, 0 < retries →
        (∀ j, j < retries → o j = .conn) →
        robust_get o retries backoff
          = (.raisedConn, (List.range (retries - 1)).map (fun j => backoff ^ j))) := by
  have haux : ∀ (o : Nat → ReqOut) (backoff : Nat) (k : Nat),
      ∀ (attempt rem : Nat) (s : Nat) (b : String), k < rem →
      (∀ j, j < k → o (attempt + j) = .conn) → o (attempt + k) = .resp s b →
      robust_get_aux o backoff attempt rem
        = (.got s b, (List.range k).map (fun j => backoff ^ (attempt + j))) := by
    intro o backoff k
    induction k with
    | zero =>
      intro attempt rem s b hrem _ hresp
      cases rem with
      | zero => omega
      | succ r =>
        rw [robust_get_aux]
        rw [show o attempt = .resp s b from by simpa using hresp]
        rfl
    | succ k ihk =>
      intro attempt rem s b hrem hconn hresp
      cases rem with
      | zero => omega
      | succ r =>
        have hr0 : r ≠ 0 := by omega
        have hih := ihk (attempt + 1) r s b (by omega)
          (fun j hj => by
            rw [show attempt + 1 + j = attempt + (j + 1) from by omega]
            exact hconn (j + 1) (by omega))
          (by rw [show attempt + 1 + k = attempt + (k + 1) from by omega]; exact hresp)
        rw [robust_get_aux]
        rw [show o attempt = .conn from by simpa using hconn 0 (Nat.succ_pos k)]
        show (if r = 0 then ((RgRes.raisedConn : RgRes), ([] : List Nat))
            else ((robust_get_aux o backoff (attempt + 1) r).1,
              backoff ^ attempt :: (robust_get_aux o backoff (attempt + 1) r).2))
          = (RgRes.got s b,
              (List.range (k + 1)).map (fun j => backoff ^ (attempt + j)))
        rw [if_neg hr0, hih]
        show (RgRes.got s b, backoff ^ attempt
            :: (List.range k).map (fun j => backoff ^ (attempt + 1 + j))) = _
        rw [List.range_succ_eq_map, List.map_cons, List.map_map]
        congr 1
        congr 1
        apply List.map_congr_left
        intro j _
        show backoff ^ (attempt + 1 + j) = backoff ^ (attempt + Nat.succ j)
        rw [show attempt + 1 + j = attempt + Nat.succ j from by omega]
  have hexh : ∀ (o : Nat → ReqOut) (backoff : Nat) (rem : Nat),
      ∀ (attempt : Nat), 0 < rem →
      (∀ j, j < rem → o (attempt + j) = .conn) →
      robust_get_aux o backoff attempt rem
        = (.raisedConn, (List.range (rem - 1)).map (fun j => backoff ^ (attempt + j))) := by
    intro o backoff rem
    induction rem with
    | zero => omega
    | succ r ihr =>
      intro attempt _ hconn
      rw [robust_get_aux]
      rw [show o attempt = .conn from by simpa using hconn 0 (Nat.succ_pos r)]
      cases r with
      | zero => rfl
      | succ r2 =>
        have hih := ihr (attempt + 1) (by omega)
          (fun j hj => by
            rw [show attempt + 1 + j = attempt + (j + 1) from by omega]
            exact hconn (j + 1) (by omega))
        show (if r2 + 1 = 0 then ((RgRes.raisedConn : RgRes), ([] : List Nat))
            else ((robust_get_aux o backoff (attempt + 1) (r2 + 1)).1,
              backoff ^ attempt
                :: (robust_get_aux o backoff (attempt + 1) (r2 + 1)).2))
          = (RgRes.raisedConn,
              (List.range (r2 + 1 + 1 - 1)).map (fun j => backoff ^ (attempt + j)))
        rw [if_neg (by omega), hih]
        show (RgRes.raisedConn, backoff ^ attempt
            :: (List.range (r2 + 1 - 1)).map (fun j => backoff ^ (attempt + 1 + j)))
          = _
        simp only [Nat.add_sub_cancel]
        rw [List.range_succ_eq_map, List.map_cons, List.map_map]
        congr 1
        congr 1
        apply List.map_congr_left
        intro j _
        show backoff ^ (attempt + 1 + j) = backoff ^ (attempt + Nat.succ j)
        rw [show attempt + 1 + j = attempt + Nat.succ j from by omega]
  refine ⟨?_, ?_, ?_, ?_, ?_⟩
  · intro o o' h
    unfold fetch_cookies_single
    rw [h]
  · intro o h
    unfold fetch_cookies_single
    rw [h]
    rfl
  · intro o s b h hs
    unfold fetch_cookies_single
    rw [h]
    show fetch_cookies_from_path (.resp s b) = []
    simp [fetch_cookies_from_path, hs]
  · intro o retries backoff k s b hk hconn hresp
    unfold robust_get
    rw [haux o backoff k 0 retries s b hk
      (fun j hj => by simpa using hconn j hj) (by simpa using hresp)]
    refine congrArg _ ?_
    apply List.map_congr_left
    intro j _
    rw [Nat.zero_add]
  · intro o retries backoff hpos hconn
    unfold robust_get
    rw [hexh o backoff retries 0 hpos (fun j hj => by simpa using hconn j hj)]
    refine congrArg _ ?_
    apply List.map_congr_left
    intro j _
    rw [Nat.zero_add]

/-- Witness for the amended C6: one connection failure, then a 503 response
returned immediately (non-2xx not retried), after a single 1-second sleep. -/
theorem retry_policy_amended_witness :
    robust_get (fun n => if n = 0 then ReqOut.conn else ReqOut.resp 503 "oops") 3 2
      = (.got 503 "oops", [1]) := by
  have h := retry_policy_amended.2.2.2.1
    (fun n => if n = 0 then ReqOut.conn else ReqOut.resp 503 "oops") 3 2 1 503 "oops"
    (by omega) (by decide) rfl
  rw [h]
  rfl
/-! ## Share URL parsing and `save_terabox_video` (C7) -/

/-- Split a character list at a separator; always non-empty, like Python's
`s.split(sep)` for a one-character separator. -/
def splitOnChar (sep : Char) : List Char → List (List Char)
  | [] => [[]]
  | c :: rest =>
    match splitOnChar sep rest with
    | [] => [[c]]
    | h :: t => if c = sep then [] :: h :: t else (c :: h) :: t

/-- The query component of a URL, as `urllib.parse.urlparse(url).query`:
the fragment (everything from the first `#`) is split off first, then the
query is everything after the first `?` of what remains. -/
def queryOf (url : String) : String :=
  match (url.toList.takeWhile (fun c => c ≠ '#')).dropWhile (fun c => c ≠ '?') with
  | [] => ""
  | _ :: rest => String.mk rest

/-- `urllib.parse.parse_qs(query).get(key, [])`: the values bound to `key`,
in order; a field with no `=` or an empty value is skipped (percent-decoding
of values is not modelled — the URLs involved carry plain values). -/
def qsValues (query : String) (key : String) : List String :=
  (splitOnChar '&' query.toList).filterMap (fun field =>
    let name := field.takeWhile (fun c => c ≠ '=')
    match field.dropWhile (fun c => c ≠ '=') with
    | [] => none
    | _ :: value =>
      if String.mk name = key && !value.isEmpty
      then some (String.mk value) else none)

/-- Python's `s[1:] if s.startswith('1') else s`, the leading-filler strip
applied to share codes. -/
def strip1 (s : String) : String :=
  match s.toList with
  | '1' :: rest => String.mk rest
  | _ => s

/-- A character matched by the share-code class `[A-Za-z0-9_-]`. -/
def isCodeChar (c : Char) : Bool :=
  c.isAlphanum || c = '_' || c = '-'

/-- `re.search(r"/s/([A-Za-z0-9_-]+)", url)`: the leftmost `/s/` followed by
a non-empty run of code characters, returning that maximal run. -/
def searchSlashS : List Char → Option (List Char)
  | [] => none
  | c :: rest =>
    if ['/', 's', '/'].isPrefixOf (c :: rest) then
      let run := (rest.drop 2).takeWhile isCodeChar
      if run.isEmpty then searchSlashS rest else some run
    else searchSlashS rest

/-- `re.search(r"([A-Za-z0-9_-]+)", url)`: the leftmost non-empty run of
code characters. -/
def searchCodeRun : List Char → Option (List Char)
  | [] => none
  | c :: rest =>
    if isCodeChar c then some (c :: rest.takeWhile isCodeChar)
    else searchCodeRun rest

/-- `extract_surl_from_url` from `get-m3u8-stream.py` (lines 134-180): strip
a leading `1`, then try the `surl` query parameter, the `/s/<code>` path
segment, and finally any bare code run; each extracted code is stripped of a
leading `1`; `none` when nothing matches. -/
def extract_surl_from_url (url : String) : Option String :=
  let url := strip1 url
  match qsValues (queryOf url) "surl" with
  | s :: _ => some (strip1 s)
  | [] =>
    match searchSlashS url.toList with
    | some run => some (strip1 (String.mk run))
    | none =>
      match searchCodeRun url.toList with
      | some run => some (strip1 (String.mk run))
      | none => none

/-- One entry of the `/share/list` response. -/
structure SaveItem where
  isdir : String
  fs_id : String
  deriving Repr, DecidableEq

/-- The decoded `/share/list` response body. -/
structure ListingResp where
  errno : Int
  list : List SaveItem
  share_id : String
  uk : String
  deriving Repr, DecidableEq

/-- The HTTP requests `save_terabox_video` can issue, in order. -/
inductive SaveAction : Type
  | pageGet : SaveAction
  | listGet : SaveAction
  | transferPost : SaveAction
  deriving Repr, DecidableEq

/-- Remote responses for one `save_terabox_video` run: `none` models a
request that raises (network error / `raise_for_status`). -/
structure SaveEnv where
  page : Option String
  listing : Option ListingResp
  transfer : Option Int

/-- `save_terabox_video` from `get-m3u8-stream.py` (lines 182-270), paired
with the trace of requests it issues: fetch the share page, extract
`jsToken` / `dp-logid` / `surl`, list the share, require a success `errno`
and exactly one non-directory entry with a file id, then transfer; `False`
on every failure (exceptions included), with no retry of any step. -/
def save_terabox_video (env : SaveEnv) (url : String) : Bool × List SaveAction :=
  match env.page with
  | none => (false, [.pageGet])
  | some text =>
    if find_between text "fn%28%22" "%22%29" = "" then (false, [.pageGet])
    else if find_between text "dp-logid=" "&" = "" then (false, [.pageGet])
    else
      match extract_surl_from_url url with
      | none => (false, [.pageGet])
      | some surl =>
        if surl = "" then (false, [.pageGet])
        else
          match env.listing with
          | none => (false, [.pageGet, .listGet])
          | some lr =>
            if lr.errno ≠ 0 then (false, [.pageGet, .listGet])
            else
              match lr.list with
              | [] => (false, [.pageGet, .listGet])
              | item :: rest =>
                if 0 < rest.length then (false, [.pageGet, .listGet])
                else if item.isdir = "1" then (false, [.pageGet, .listGet])
                else if item.fs_id = "" then (false, [.pageGet, .listGet])
                else
                  match env.transfer with
                  | none => (false, [.pageGet, .listGet, .transferPost])
                  | some errno =>
                    (errno = 0, [.pageGet, .listGet, .transferPost])

/-- CLAIM C7 — whenever the listing response carries more than one entry, or
its single entry is a directory, `save_terabox_video` returns `False` having
issued exactly one page fetch and one listing call: the transfer is never
attempted and no credential or mirror retry exists on this path. -/
theorem save_requires_single_file_entry (env : SaveEnv) (url text : String)
    (lr : ListingResp)
    (hpage : env.page = some text)
    (hjs : find_between text "fn%28%22" "%22%29" ≠ "")
    (hlog : find_between text "dp-logid=" "&" ≠ "")
    (hsurl : ∃ s, extract_surl_from_url url = some s ∧ s ≠ "")
    (hlist : env.listing = some lr)
    (herr : lr.errno = 0)
    (hshape : 1 < lr.list.length ∨ ∃ it, lr.list = [it] ∧ it.isdir = "1") :
    save_terabox_video env url = (false, [.pageGet, .listGet]) := by
  obtain ⟨s, hs, hs0⟩ := hsurl
  rcases hshape with hgt | ⟨it, hl, hdir⟩
  · rcases hl2 : lr.list with _ | ⟨a, _ | ⟨b, t⟩⟩
    · rw [hl2] at hgt
      simp at hgt
    · rw [hl2] at hgt
      simp at hgt
    · unfold save_terabox_video
      rw [hpage, hs, hlist]
      simp [hjs, hlog, hs0, herr, hl2]
  · unfold save_terabox_video
    rw [hpage, hs, hlist]
    simp [hjs, hlog, hs0, herr, hl, hdir]

/-- Witness for C7: a two-entry listing makes the concrete run fail after
the page fetch and the listing call only. -/
theorem save_requires_single_file_entry_witness :
    save_terabox_video
      ⟨some "fn%28%22T%22%29 dp-logid=7&",
       some ⟨0, [⟨"0", "f1"⟩, ⟨"0", "f2"⟩], "sid", "uk1"⟩,
       some 0⟩
      "https://terabox.com/s/1abcd"
      = (false, [.pageGet, .listGet]) := by
  apply save_requires_single_file_entry
  · rfl
  · decide
  · decide
  · exact ⟨"abcd", by decide, by decide⟩
  · rfl
  · rfl
  · left
    decide

/-! ## ShareResolver: `get_data` mirror fallback (C8) and the login check of
`_fetch_data` (C9), from `get_m3u8_stream_fast.py` -/

/-- `extract_surl_from_url` from `get_m3u8_stream_fast.py` (lines 51-70):
only the `surl` query parameter is consulted; `none` models the `False`
returned when it is absent. -/
def extract_surl_from_url_fast (url : String) : Option String :=
  match qsValues (queryOf url) "surl" with
  | s :: _ => some s
  | [] => none

/-- `"login" in text.lower() and "password" in text.lower()` (line 311). -/
def is_login_page (text : String) : Bool :=
  strContains (pyLower text) "login" && strContains (pyLower text) "password"

/-- The `/share/list` response inside `_fetch_data`. -/
structure FdListing : Type where
  status : Nat
  errno : Int
  listEntries : List String
  share_id : String
  uk : String

/-- Outcome of `_fetch_data`: a truthy result dict, the literal `False`, or
a re-raised exception (line 389). -/
inductive FdOutcome (α : Type) : Type
  | ok (v : α) : FdOutcome α
  | falsy : FdOutcome α
  | raised : FdOutcome α
  deriving Repr, DecidableEq

/-- Remote data consumed by one `_fetch_data` call.  `listing = none` models
an exception while listing; `processed` abstracts the result of the
concurrent `process_file`/`process_folder` fan-out of HEAD requests, plus
the standardization step, none of which gates control flow. -/
structure FdEnv (α : Type) : Type where
  pageText : String
  redirectUrl : String
  listing : Option FdListing
  processed : α

/-- `TeraBoxExtractor._fetch_data` (lines 295-389): a login-looking page
calls `cookie_manager.force_refresh()` (the returned Bool) and fails the
attempt; then shorturl extraction, the listing status/`errno` check and the
empty-list check each fail the attempt without a refresh.  The token
extractions (`find_between` on the page) never gate control flow here. -/
def fetch_data {α : Type} (env : FdEnv α) : FdOutcome α × Bool :=
  if is_login_page env.pageText then (.falsy, true)
  else
    match extract_surl_from_url_fast env.redirectUrl with
    | none => (.falsy, false)
    | some su =>
      if su = "" then (.falsy, false)
      else
        match env.listing with
        | none => (.raised, false)
        | some l =>
          if l.status ≠ 200 || l.errno ≠ 0 then (.falsy, false)
          else if l.listEntries.isEmpty then (.falsy, false)
          else (.ok env.processed, false)

/-- Outcome of one `_fetch_data` call as the `get_data` loop sees it. -/
inductive FetchTry (α : Type) : Type
  | ok (v : α) : FetchTry α
  | falsy : FetchTry α
  | exc : FetchTry α
  deriving Repr, DecidableEq

/-- Whether an attempt outcome is truthy. -/
def FetchTry.isOk {α : Type} : FetchTry α → Bool
  | .ok _ => true
  | _ => false

/-- Collapse a `_fetch_data` run to what `get_data`'s loop observes. -/
def fetch_try_of {α : Type} : FdOutcome α × Bool → FetchTry α
  | (.ok v, _) => .ok v
  | (.falsy, _) => .falsy
  | (.raised, _) => .exc

/-- Result of `get_data`: a truthy result, the `False` after the loop (or
from the single fetch), or an exception propagated on the no-share-code
path. -/
inductive GetDataRes (α : Type) : Type
  | ok (v : α) : GetDataRes α
  | failed : GetDataRes α
  | raised : GetDataRes α
  deriving Repr, DecidableEq

/-- Share-code derivation of `get_data` (lines 253-261): only for URLs on
the two recognized share domains, via the `/s/<code>` pattern, stripping a
leading `1`. -/
def derive_share_code (url : String) : Option String :=
  if strContains url "/teraboxapp.com/s/" || strContains url "/terabox.com/s/" then
    match searchSlashS url.toList with
    | some run => some (strip1 (String.mk run))
    | none => none
  else none

/-- The alternate-domain list of `get_data` (lines 265-275), the original
URL appended as a last resort when not already present. -/
def mirror_domains (code url : String) : List String :=
  let ds := ["https://www.1024tera.com/sharing/link?surl=" ++ code,
             "https://1024terabox.com/s/" ++ code,
             "https://terabox.com/s/" ++ code,
             "https://www.terabox.com/sharing/link?surl=" ++ code]
  if url ∈ ds then ds else ds ++ [url]

/-- The domain loop of `get_data` (lines 277-290), with the trace of URLs
attempted: the first truthy result is returned at once, a falsy result or a
raised exception moves on to the next URL, and `False` is returned when the
list is exhausted. -/
def run_domains {α : Type} (fetch : String → FetchTry α) :
    List String → GetDataRes α × List String
  | [] => (.failed, [])
  | d :: ds =>
    match fetch d with
    | .ok v => (.ok v, [d])
    | _ =>
      let r := run_domains fetch ds
      (r.1, d :: r.2)

/-- `return await self._fetch_data(url)` on the no-share-code path. -/
def single_outcome {α : Type} : FetchTry α → GetDataRes α
  | .ok v => .ok v
  | .falsy => .failed
  | .exc => .raised

/-- `TeraBoxExtractor.get_data` (lines 248-293), with the attempted URLs. -/
def get_data {α : Type} (fetch : String → FetchTry α) (url : String) :
    GetDataRes α × List String :=
  match derive_share_code url with
  | some c =>
    if c ≠ "" then run_domains fetch (mirror_domains c url)
    else (single_outcome (fetch url), [url])
  | none => (single_outcome (fetch url), [url])

/-- CLAIM C8 — when (and only when) a non-empty share code is derived,
`get_data` walks the fixed mirror list (original URL appended last) in
order and returns the first truthy fetch, short-circuiting the rest — the
trace is exactly the failing prefix plus the winning mirror; with no
derivable share code, only the original URL is attempted. -/
theorem get_data_mirror_order {α : Type} (fetch : String → FetchTry α)
    (url : String) :
    (∀ c, derive_share_code url = some c → c ≠ "" →
      ∀ (ds1 ds2 : List String) (d : String) (v : α),
        mirror_domains c url = ds1 ++ d :: ds2 →
        (∀ x ∈ ds1, (fetch x).isOk = false) →
        fetch d = .ok v →
        get_data fetch url = (.ok v, ds1 ++ [d]))
    ∧ ((derive_share_code url).getD "" = "" →
        get_data fetch url = (single_outcome (fetch url), [url])) := by
  have hrun : ∀ (ds1 : List String) (d : String) (ds2 : List String) (v : α),
      (∀ x ∈ ds1, (fetch x).isOk = false) → fetch d = .ok v →
      run_domains fetch (ds1 ++ d :: ds2) = (.ok v, ds1 ++ [d]) := by
    intro ds1
    induction ds1 with
    | nil =>
      intro d ds2 v _ hd
      show run_domains fetch (d :: ds2) = _
      unfold run_domains
      rw [hd]
      rfl
    | cons x xs ih =>
      intro d ds2 v hfail hd
      show run_domains fetch (x :: (xs ++ d :: ds2)) = _
      unfold run_domains
      cases hx : fetch x with
      | ok w =>
        have := hfail x (by simp)
        rw [hx] at this
        exact absurd this (by simp [FetchTry.isOk])
      | falsy =>
        rw [ih d ds2 v (fun y hy => hfail y (by simp [hy])) hd]
        rfl
      | exc =>
        rw [ih d ds2 v (fun y hy => hfail y (by simp [hy])) hd]
        rfl
  constructor
  · intro c hc hcne ds1 ds2 d v hsplit hfail hd
    unfold get_data
    rw [hc]
    show (if c ≠ "" then run_domains fetch (mirror_domains c url)
      else (single_outcome (fetch url), [url])) = _
    rw [if_pos hcne, hsplit, hrun ds1 d ds2 v hfail hd]
  · intro hnone
    unfold get_data
    cases hc : derive_share_code url with
    | none => rfl
    | some c =>
      rw [hc] at hnone
      have hce : c = "" := by simpa using hnone
      show (if c ≠ "" then run_domains fetch (mirror_domains c url)
        else (single_outcome (fetch url), [url])) = _
      rw [if_neg (by simp [hce])]

/-- Witness for C8: the first mirror fails, the second succeeds, the last
three are never attempted. -/
theorem get_data_mirror_order_witness :
    get_data (fun u => if u = "https://1024terabox.com/s/abc"
        then FetchTry.ok (7 : Nat) else FetchTry.falsy)
      "https://terabox.com/s/1abc"
      = (.ok 7, ["https://www.1024tera.com/sharing/link?surl=abc",
                 "https://1024terabox.com/s/abc"]) := by
  exact (get_data_mirror_order
      (fun u => if u = "https://1024terabox.com/s/abc"
        then FetchTry.ok (7 : Nat) else FetchTry.falsy)
      "https://terabox.com/s/1abc").1
    "abc" (by decide) (by decide)
    ["https://www.1024tera.com/sharing/link?surl=abc"]
    ["https://terabox.com/s/abc", "https://www.terabox.com/sharing/link?surl=abc",
     "https://terabox.com/s/1abc"]
    "https://1024terabox.com/s/abc" 7
    (by decide) (by decide) (by decide)

/-- A login-looking page body makes `_fetch_data` refresh and fail. -/
theorem fetch_data_of_login {α : Type} (env : FdEnv α)
    (h : is_login_page env.pageText = true) :
    fetch_data env = (.falsy, true) := by
  unfold fetch_data
  rw [if_pos h]

/-- CLAIM C9 — a share-page body containing both the login and the password
marker (case-insensitively) makes `_fetch_data` trigger the pool force
refresh and return a falsy result; the `get_data` loop then moves past that
mirror to the next one. -/
theorem login_page_rejects_credential {α : Type} (env : FdEnv α)
    (h : is_login_page env.pageText = true) :
    fetch_data env = (.falsy, true)
    ∧ (∀ (envOf : String → FdEnv α) (d : String) (ds : List String),
        is_login_page (envOf d).pageText = true →
        run_domains (fun u => fetch_try_of (fetch_data (envOf u))) (d :: ds)
          = ((run_domains (fun u => fetch_try_of (fetch_data (envOf u))) ds).1,
             d :: (run_domains (fun u => fetch_try_of (fetch_data (envOf u))) ds).2)) := by
  refine ⟨fetch_data_of_login env h, ?_⟩
  intro envOf d ds hd
  have hfd : fetch_try_of (fetch_data (envOf d)) = FetchTry.falsy := by
    rw [fetch_data_of_login _ hd]
    rfl
  show (match fetch_try_of (fetch_data (envOf d)) with
    | FetchTry.ok v => (GetDataRes.ok v, [d])
    | _ => ((run_domains (fun u => fetch_try_of (fetch_data (envOf u))) ds).1,
            d :: (run_domains (fun u => fetch_try_of (fetch_data (envOf u))) ds).2))
    = _
  rw [hfd]

/-- Witness for C9: a concrete login page is rejected with a forced refresh,
and the loop walks past a login-serving mirror. -/
theorem login_page_rejects_credential_witness :
    fetch_data (⟨"Please LOGIN with your Password", "u", none, (0 : Nat)⟩ : FdEnv Nat)
      = (.falsy, true) :=
  (login_page_rejects_credential
    (⟨"Please LOGIN with your Password", "u", none, (0 : Nat)⟩ : FdEnv Nat)
    (by decide)).1

end TBox
